import Mathlib

/-!
Verification of the geometrikks ingestion and aggregation pipeline.

The definitions below are a shallow embedding of the Python sources:
  * `geometrikks/services/ingestion/service.py` (`LogIngestionService`)
  * `geometrikks/domain/analytics/repositories.py` (`BatchMetrics`,
    `HourlyStatsRepository.upsert_increment`)
  * `geometrikks/services/aggregation/service.py`
    (`AggregationService.refresh_location_last_hits`)
  * `geometrikks/services/logparser/logparser.py`
    (`LogParser._detect_malformed_request`, `LogParser.create_access_log`,
    `LogParser.upsert_geo_location`)

Timestamps are modelled as whole seconds since the epoch (`Nat`), always UTC;
rational numbers stand in for Python floats; Python `set` objects are lists
with membership-guarded insertion; the SQL three-valued arithmetic used by the
hourly upsert is modelled with `Option` values.
-/

namespace Geometrikks

/-! ## Time handling

`datetime.replace(minute=0, second=0, microsecond=0)` on a UTC timestamp is
truncation of the epoch-second count to a multiple of 3600. -/

/-- Truncate an epoch-second timestamp to the start of its UTC hour
(`dt.replace(minute=0, second=0, microsecond=0)` in the source). -/
def truncHour (t : Nat) : Nat := t - t % 3600

theorem truncHour_le (t : Nat) : truncHour t ≤ t := Nat.sub_le _ _

theorem truncHour_eq_mul (t : Nat) : truncHour t = 3600 * (t / 3600) := by
  unfold truncHour
  omega

theorem truncHour_idem (t : Nat) : truncHour (truncHour t) = truncHour t := by
  rw [truncHour_eq_mul t, truncHour_eq_mul]
  rw [Nat.mul_div_cancel_left _ (by norm_num)]

theorem truncHour_lt_iff (a b : Nat) : truncHour a < truncHour b ↔ a / 3600 < b / 3600 := by
  rw [truncHour_eq_mul, truncHour_eq_mul]
  exact Nat.mul_lt_mul_left (by norm_num)

/-! ## Parsed records (`services/logparser/schemas.py`)

`ParsedLogRecord` is the pure data container consumed by
`LogIngestionService._process_record`.  The consumer reads
`record.geo_data.timestamp`, so the geo sub-record carries the observation
timestamp here.  Only the fields the ingestion service touches are kept. -/

/-- Geographic sub-record of a parsed line (`ParsedGeoData`).  `countryCode` is
a plain string in the source; Python truthiness of the empty string matters in
`_process_record`, so it stays a `String` here. -/
structure ParsedGeoData where
  timestamp : Option Nat
  geohash : String
  countryCode : String
  deriving Repr, DecidableEq

/-- Access-log sub-record of a parsed line (`ParsedAccessLog`), restricted to
the numeric fields `_process_record` aggregates. -/
structure ParsedAccessLog where
  statusCode : Int
  bytesSent : Int
  requestTime : ℚ
  deriving Repr, DecidableEq

/-- A parsed log record (`ParsedLogRecord`) as consumed by the persister. -/
structure ParsedLogRecord where
  ipAddress : Option String
  geoData : Option ParsedGeoData
  accessLog : Option ParsedAccessLog
  rawLine : String
  isMalformed : Bool
  parseError : Option String
  deriving Repr, DecidableEq

/-! ## In-batch metrics (`domain/analytics/repositories.py`, `BatchMetrics`)

The two Python `set` objects are lists with membership-guarded insertion, so
`length` is the set size. -/

/-- In-batch aggregation state (`BatchMetrics` dataclass). -/
structure BatchMetrics where
  timestamp : Nat
  requests : Nat
  geoEvents : Nat
  bytesSent : Int
  status2xx : Nat
  status3xx : Nat
  status4xx : Nat
  status5xx : Nat
  totalRequestTime : ℚ
  maxRequestTime : ℚ
  malformedRequests : Nat
  uniqueIps : List String
  uniqueCountries : List String
  deriving Repr, DecidableEq

/-- `LogIngestionService._reset_batch_metrics`: a fresh batch stamped with the
current wall-clock time. -/
def resetBatchMetrics (now : Nat) : BatchMetrics :=
  { timestamp := now, requests := 0, geoEvents := 0, bytesSent := 0
    status2xx := 0, status3xx := 0, status4xx := 0, status5xx := 0
    totalRequestTime := 0, maxRequestTime := 0, malformedRequests := 0
    uniqueIps := [], uniqueCountries := [] }

/-- `BatchMetrics.get_hour_timestamp`. -/
def BatchMetrics.getHourTimestamp (b : BatchMetrics) : Nat := truncHour b.timestamp

/-- `BatchMetrics.is_after_truncated_hour`. -/
def BatchMetrics.isAfterTruncatedHour (b : BatchMetrics) (other : Nat) : Bool :=
  b.getHourTimestamp < truncHour other

/-- `BatchMetrics.update_truncated_hour`: rebase the batch timestamp to the
record's truncated hour.  The source calls this unconditionally for each
geo-timestamped record. -/
def BatchMetrics.updateTruncatedHour (b : BatchMetrics) (newTimestamp : Nat) : BatchMetrics :=
  { b with timestamp := truncHour newTimestamp }

/-- Python `set.add`: append if not already present. -/
def setAdd (s : List String) (x : String) : List String :=
  if x ∈ s then s else s ++ [x]

/-! ## Hourly stats upsert (`HourlyStatsRepository.upsert_increment`)

The PostgreSQL `INSERT ... ON CONFLICT (hour) DO UPDATE` is an associative
list keyed by the truncated hour.  The SQL scalar functions `nullif`,
`coalesce` and division-by-NULL are modelled with `Option ℚ`. -/

/-- SQL `NULLIF(a, b)`: `NULL` when the operands are equal, else `a`. -/
def sqlNullif (a b : ℚ) : Option ℚ :=
  if a = b then none else some a

/-- SQL division against a possibly-NULL denominator: `x / NULL` is `NULL`.
A division is only ever performed when the denominator is a non-NULL value. -/
def sqlDivOpt (x : ℚ) : Option ℚ → Option ℚ
  | none => none
  | some d => some (x / d)

/-- SQL `COALESCE(a, d)`. -/
def sqlCoalesce (a : Option ℚ) (d : ℚ) : ℚ := a.getD d

/-- The `avg_request_time` expression of the conflict branch in
`upsert_increment`:
`coalesce((old_avg * old_count + batch_sum) / nullif(old_count + batch_count, 0), 0.0)`. -/
def avgCombinerSql (oldAvg : ℚ) (oldCount : Nat) (batchSum : ℚ) (batchCount : Nat) : ℚ :=
  sqlCoalesce
    (sqlDivOpt (oldAvg * (oldCount : ℚ) + batchSum)
      (sqlNullif ((oldCount : ℚ) + (batchCount : ℚ)) 0))
    0

/-- The weighted-mean combiner as the specification words it: the weighted
mean of the old average and the batch sum, with the `old_count + batch_count = 0`
case coalesced to `0.0`.  Stated separately so the SQL expression from the
source can be compared against it. -/
def avgCombinerSpec (oldAvg : ℚ) (oldCount : Nat) (batchSum : ℚ) (batchCount : Nat) : ℚ :=
  if (oldCount : ℚ) + (batchCount : ℚ) = 0 then 0
  else (oldAvg * (oldCount : ℚ) + batchSum) / ((oldCount : ℚ) + (batchCount : ℚ))

/-- One row of the `hourly_stats` table (per-hour metric columns). -/
structure HourlyRow where
  totalRequests : Nat
  totalGeoEvents : Nat
  uniqueIps : Nat
  uniqueCountries : Nat
  totalBytesSent : Int
  status2xx : Nat
  status3xx : Nat
  status4xx : Nat
  status5xx : Nat
  avgRequestTime : ℚ
  maxRequestTime : ℚ
  malformedRequests : Nat
  deriving Repr, DecidableEq

/-- The `VALUES` part of the upsert: the row inserted when no row for the hour
exists yet.  `avg_time = total_request_time / requests if requests > 0 else 0.0`. -/
def insertRowOf (m : BatchMetrics) : HourlyRow :=
  { totalRequests := m.requests
    totalGeoEvents := m.geoEvents
    uniqueIps := m.uniqueIps.length
    uniqueCountries := m.uniqueCountries.length
    totalBytesSent := m.bytesSent
    status2xx := m.status2xx
    status3xx := m.status3xx
    status4xx := m.status4xx
    status5xx := m.status5xx
    avgRequestTime := if 0 < m.requests then m.totalRequestTime / (m.requests : ℚ) else 0
    maxRequestTime := m.maxRequestTime
    malformedRequests := m.malformedRequests }

/-- The `ON CONFLICT DO UPDATE SET` part of the upsert: additive counters,
`greatest` for the max, and the coalesced weighted mean for the average. -/
def combineRow (old : HourlyRow) (m : BatchMetrics) : HourlyRow :=
  { totalRequests := old.totalRequests + m.requests
    totalGeoEvents := old.totalGeoEvents + m.geoEvents
    uniqueIps := old.uniqueIps + m.uniqueIps.length
    uniqueCountries := old.uniqueCountries + m.uniqueCountries.length
    totalBytesSent := old.totalBytesSent + m.bytesSent
    status2xx := old.status2xx + m.status2xx
    status3xx := old.status3xx + m.status3xx
    status4xx := old.status4xx + m.status4xx
    status5xx := old.status5xx + m.status5xx
    avgRequestTime := avgCombinerSql old.avgRequestTime old.totalRequests m.totalRequestTime m.requests
    maxRequestTime := max old.maxRequestTime m.maxRequestTime
    malformedRequests := old.malformedRequests + m.malformedRequests }

/-- The `hourly_stats` table: rows keyed by their (unique) truncated hour. -/
abbrev HourlyTable := List (Nat × HourlyRow)

/-- `HourlyStatsRepository.upsert_increment`: key the batch on its truncated
hour, insert a fresh row or combine with the existing one. -/
def upsertIncrement (table : HourlyTable) (m : BatchMetrics) : HourlyTable :=
  let hour := truncHour m.timestamp
  if (List.find? (fun p => p.1 = hour) table).isSome then
    List.map (fun p => if p.1 = hour then (p.1, combineRow p.2 m) else p) table
  else
    table ++ [(hour, insertRowOf m)]

/-! ## Debug rows (`LogIngestionService._create_debug_entry`) -/

/-- One `access_log_debug` row. -/
structure DebugEntry where
  accessLogId : Option Nat
  rawLine : String
  isMalformed : Bool
  parseError : Option String
  deriving Repr, DecidableEq

/-- `_create_debug_entry`: bail out on a falsy (empty) `raw_line`, otherwise
build the debug row.  `accessLogId` is the id of the `AccessLog` row flushed
for the same record, when one was produced. -/
def createDebugEntry (rec : ParsedLogRecord) (accessLogId : Option Nat) : Option DebugEntry :=
  if rec.rawLine = "" then none
  else some { accessLogId := accessLogId, rawLine := rec.rawLine
              isMalformed := rec.isMalformed, parseError := rec.parseError }

/-- The debug-handling step of `_process_record`: a debug entry is attempted
iff `store_debug_lines` is enabled or the record is malformed. -/
def debugStep (storeDebugLines : Bool) (rec : ParsedLogRecord) (accessLogId : Option Nat) :
    Option DebugEntry :=
  if storeDebugLines || rec.isMalformed then createDebugEntry rec accessLogId else none

/-! ## The ingestion state machine (`LogIngestionService`) -/

/-- The mutable state `_process_record` and `_commit_batch` act on.
`nextAccessId` models the primary-key sequence: a session flush assigns the
next id to a freshly added `AccessLog` row. -/
structure IngestState where
  batch : BatchMetrics
  table : HourlyTable
  pendingRecords : Nat
  pendingGeoRecords : Nat
  pendingLogRecords : Nat
  pendingLogDebugRecords : Nat
  totalProcessed : Nat
  nextAccessId : Nat
  debugRows : List DebugEntry
  deriving Repr, DecidableEq

/-- Environment of the ingestion task: the outcome of
`_get_or_create_location` (abstracted as a function of the geo data) and the
`store_debug_lines` flag. -/
structure IngestEnv where
  resolveLoc : ParsedGeoData → Option Nat
  storeDebugLines : Bool

/-- Initial state of the ingestion task. -/
def initIngestState (now : Nat) : IngestState :=
  { batch := resetBatchMetrics now, table := [], pendingRecords := 0
    pendingGeoRecords := 0, pendingLogRecords := 0, pendingLogDebugRecords := 0
    totalProcessed := 0, nextAccessId := 0, debugRows := [] }

/-- `LogIngestionService._commit_batch` (successful commit): merge the batch
into the hourly table when it holds requests or geo events, then reset the
in-batch metrics and the pending counters. -/
def commitBatch (now : Nat) (st : IngestState) : IngestState :=
  let table :=
    if 0 < st.batch.requests || 0 < st.batch.geoEvents then
      upsertIncrement st.table st.batch
    else st.table
  { st with
    table := table
    batch := resetBatchMetrics now
    pendingRecords := 0
    pendingGeoRecords := 0
    pendingLogRecords := 0
    pendingLogDebugRecords := 0 }

/-- The hour-boundary block at the top of `_process_record` (guarded by
`record.geo_data and record.geo_data.timestamp`): commit first when the
record falls after the batch's truncated hour, then rebase the batch to the
record's truncated hour unconditionally.  The returned flag records whether
the commit fired. -/
def hourRebase (now : Nat) (st : IngestState) (rec : ParsedLogRecord) : IngestState × Bool :=
  match rec.geoData with
  | none => (st, false)
  | some gd =>
    match gd.timestamp with
    | none => (st, false)
    | some ts =>
      let p := if st.batch.isAfterTruncatedHour ts then (commitBatch now st, true) else (st, false)
      ({ p.1 with batch := p.1.batch.updateTruncatedHour ts }, p.2)

/-- The geo-event block of `_process_record`: when the record has geo data and
an IP and the location deduper produced a location, a `GeoEvent` row is added
and the batch geo metrics advance. -/
def geoStep (env : IngestEnv) (st : IngestState) (rec : ParsedLogRecord) : IngestState :=
  match rec.geoData, rec.ipAddress with
  | some gd, some ip =>
    match env.resolveLoc gd with
    | some _ =>
      let b := st.batch
      let b := { b with
        geoEvents := b.geoEvents + 1
        uniqueIps := if ip ≠ "" then setAdd b.uniqueIps ip else b.uniqueIps
        uniqueCountries :=
          if gd.countryCode ≠ "" then setAdd b.uniqueCountries gd.countryCode
          else b.uniqueCountries }
      { st with
        batch := b
        pendingRecords := st.pendingRecords + 1
        pendingGeoRecords := st.pendingGeoRecords + 1 }
    | none => st
  | _, _ => st

/-- The access-log block of `_process_record`: add the `AccessLog` row (its id
is assigned at the next flush), bump the batch request metrics and the status
class matching the record's status code. -/
def accessStep (st : IngestState) (al : ParsedAccessLog) : IngestState :=
  let b := st.batch
  let s := al.statusCode
  let b := { b with
    requests := b.requests + 1
    bytesSent := b.bytesSent + al.bytesSent
    totalRequestTime := b.totalRequestTime + al.requestTime
    maxRequestTime := if b.maxRequestTime < al.requestTime then al.requestTime else b.maxRequestTime
    status2xx := if 200 ≤ s ∧ s < 300 then b.status2xx + 1 else b.status2xx
    status3xx := if ¬(200 ≤ s ∧ s < 300) ∧ (300 ≤ s ∧ s < 400) then b.status3xx + 1 else b.status3xx
    status4xx := if ¬(200 ≤ s ∧ s < 300) ∧ ¬(300 ≤ s ∧ s < 400) ∧ (400 ≤ s ∧ s < 500) then
        b.status4xx + 1 else b.status4xx
    status5xx := if ¬(200 ≤ s ∧ s < 300) ∧ ¬(300 ≤ s ∧ s < 400) ∧ ¬(400 ≤ s ∧ s < 500) ∧ 500 ≤ s then
        b.status5xx + 1 else b.status5xx }
  { st with
    batch := b
    pendingRecords := st.pendingRecords + 1
    pendingLogRecords := st.pendingLogRecords + 1
    nextAccessId := st.nextAccessId + 1 }

/-- The debug block of `_process_record` plus `_create_debug_entry`:
`accessAdded`/`accessId` say whether an `AccessLog` row was added for this
record and which id the flush assigns to it. -/
def debugPersistStep (env : IngestEnv) (st : IngestState) (rec : ParsedLogRecord)
    (accessAdded : Bool) (accessId : Nat) : IngestState :=
  if env.storeDebugLines || rec.isMalformed then
    let entry := createDebugEntry rec (if accessAdded then some accessId else none)
    let st :=
      match entry with
      | some e =>
        { st with
          debugRows := st.debugRows ++ [e]
          pendingRecords := st.pendingRecords + 1 }
      | none => st
    { st with pendingLogDebugRecords := st.pendingLogDebugRecords + 1 }
  else st

/-- The malformed counter at the tail of `_process_record`. -/
def malformedCountStep (st : IngestState) (rec : ParsedLogRecord) : IngestState :=
  if rec.isMalformed then
    { st with batch := { st.batch with malformedRequests := st.batch.malformedRequests + 1 } }
  else st

/-- `LogIngestionService._process_record` (with a successful session): the
hour-boundary block, the geo block, the access block, the debug block and the
malformed counter, in source order.  The flush id handed to the debug block
is captured before the access step advances the id sequence. -/
def processRecord (env : IngestEnv) (now : Nat) (st : IngestState) (rec : ParsedLogRecord) :
    IngestState :=
  let st1 := (hourRebase now st rec).1
  let st2 := geoStep env st1 rec
  let st3 :=
    match rec.accessLog with
    | some al => accessStep st2 al
    | none => st2
  let st4 := debugPersistStep env st3 rec rec.accessLog.isSome st2.nextAccessId
  let st5 := malformedCountStep st4 rec
  { st5 with totalProcessed := st5.totalProcessed + 1 }

/-- The record-consuming loop of `_run_ingestion`, with the commit triggers
(batch-size and interval commits) abstracted into a decision per record
index: after the `i`-th record is processed, a commit fires iff
`commitAfter i`. -/
def ingestLoop (env : IngestEnv) (now : Nat) (commitAfter : Nat → Bool) :
    List ParsedLogRecord → Nat → IngestState → IngestState
  | [], _, st => st
  | r :: rs, i, st =>
    let st := processRecord env now st r
    let st := if commitAfter i then commitBatch now st else st
    ingestLoop env now commitAfter rs (i + 1) st

/-- `_run_ingestion` on a finite stream without failures: run the loop, then
the final commit of the `finally` block (fires only when records are
pending). -/
def ingest (env : IngestEnv) (now : Nat) (commitAfter : Nat → Bool)
    (records : List ParsedLogRecord) : IngestState :=
  let st := ingestLoop env now commitAfter records 0 (initIngestState now)
  if 0 < st.pendingRecords then commitBatch now st else st

/-! ## Commit-failure behaviour of `_run_ingestion`

`_run_ingestion` wraps its record loop in
`except Exception: logger.exception(...); raise` and a `finally` block whose
final commit is the only commit guarded by its own `try`/`except`.  The model
below keeps just what that control flow needs: each record adds one pending
row, a mid-stream commit fires when `batch_size` pending rows accumulate, and
an oracle decides whether the `k`-th `session.commit()` raises. -/

/-- Observable outcome of one `_run_ingestion` run. -/
structure RunResult where
  processed : Nat
  commitsAttempted : Nat
  finalCommitAttempted : Bool
  raised : Bool
  deriving Repr, DecidableEq

/-- Loop state of `_run_ingestion`: pending rows, commit counter, records
consumed so far. -/
structure LoopState where
  pending : Nat
  commitsDone : Nat
  processed : Nat
  deriving Repr, DecidableEq

/-- The record loop of `_run_ingestion`.  On a mid-stream commit failure the
`except Exception` handler logs and re-raises, so the loop stops and the
returned flag is `true`; there is no per-commit handler inside the loop. -/
def runLoop (batchSize : Nat) (commitOk : Nat → Bool) :
    List Unit → LoopState → LoopState × Bool
  | [], st => (st, false)
  | _ :: rest, st =>
    let st := { st with pending := st.pending + 1, processed := st.processed + 1 }
    if batchSize ≤ st.pending then
      if commitOk st.commitsDone then
        runLoop batchSize commitOk rest
          { st with pending := 0, commitsDone := st.commitsDone + 1 }
      else
        ({ st with commitsDone := st.commitsDone + 1 }, true)
    else
      runLoop batchSize commitOk rest st

/-- `_run_ingestion` on a finite stream: run the loop, then the `finally`
block attempts a final commit when rows are pending.  `finalCommitOk` is the
outcome of that final commit; its failure is absorbed by the `try`/`except`
around it, so it influences nothing observable here, while a mid-stream
commit failure propagates out of the coroutine as `raised`. -/
def runIngestion (batchSize : Nat) (commitOk : Nat → Bool) (finalCommitOk : Bool)
    (records : List Unit) : RunResult :=
  let r := runLoop batchSize commitOk records { pending := 0, commitsDone := 0, processed := 0 }
  { processed := r.1.processed
    commitsAttempted := r.1.commitsDone + (if 0 < r.1.pending then 1 else 0)
    finalCommitAttempted := 0 < r.1.pending
    raised := r.2 }

/-! ## Location deduper (`LogIngestionService._get_or_create_location`)

The store is the `geo_locations` table restricted to its unique `geohash`
column and the id sequence.  `getOrCreateLocation` takes the store as seen by
the point lookup and the store as seen by the insert/flush separately: in a
single ingestion task they coincide, and they differ exactly when a
concurrent writer inserts the same geohash between the two statements (the
race the unique constraint turns into a duplicate-key error). -/

/-- The `geo_locations` store: geohash-keyed rows plus the id sequence. -/
structure LocationStore where
  rows : List (String × Nat)
  nextId : Nat
  deriving Repr, DecidableEq

/-- Point lookup by geohash (`get_by_geohash`). -/
def storeLookup (s : LocationStore) (g : String) : Option Nat :=
  (List.find? (fun p => p.1 = g) s.rows).map (fun p => p.2)

/-- `_cache_maxsize` in the source. -/
def cacheMaxsize : Nat := 10000

/-- The eviction step of `_get_or_create_location`: drop the oldest-inserted
cache entry when the cache is full. -/
def evictIfFull (cache : List (String × Nat)) : List (String × Nat) :=
  if cacheMaxsize ≤ cache.length then cache.drop 1 else cache

/-- Failure surfaced by the store. -/
inductive DbError where
  | duplicateKey
  deriving Repr, DecidableEq

/-- `_get_or_create_location`: cache hit, else point lookup against
`lookupStore`, else insert-and-flush against `insertStore`.  The unique
`geohash` constraint (`uq_geohash` on `GeoLocation`) rejects the insert when
`insertStore` already holds the geohash, and the source contains no handler
for that failure, so it is returned as the error it raises. -/
def getOrCreateLocation (cache : List (String × Nat))
    (lookupStore insertStore : LocationStore) (g : String) :
    Except DbError (Nat × List (String × Nat) × LocationStore) :=
  match (List.find? (fun p => p.1 = g) cache).map (fun p => p.2) with
  | some locId => .ok (locId, cache, insertStore)
  | none =>
    let cache := evictIfFull cache
    match storeLookup lookupStore g with
    | some locId => .ok (locId, cache ++ [(g, locId)], insertStore)
    | none =>
      if (storeLookup insertStore g).isSome then
        .error .duplicateKey
      else
        let locId := insertStore.nextId
        .ok (locId, cache ++ [(g, locId)],
          { rows := insertStore.rows ++ [(g, locId)], nextId := insertStore.nextId + 1 })

/-- One deduper call of a single ingestion task: lookup and insert see the
same store.  The error branch is unreachable in this configuration (the two
`storeLookup` results are the same expression), so the state is returned
unchanged there. -/
def dedupStep (st : List (String × Nat) × LocationStore) (g : String) :
    List (String × Nat) × LocationStore :=
  match getOrCreateLocation st.1 st.2 st.2 g with
  | .ok (_, cache, store) => (cache, store)
  | .error _ => st

/-- A run of the deduper over the stream of geohashes one process lifetime
sees. -/
def dedupRun (gs : List String) : List (String × Nat) × LocationStore :=
  gs.foldl dedupStep ([], { rows := [], nextId := 0 })

/-- Number of `geo_locations` rows carrying a given geohash. -/
def rowCount (s : LocationStore) (g : String) : Nat :=
  (s.rows.filter (fun p => p.1 = g)).length

/-! ## GeoIP enrichment (`LogParser.upsert_geo_location`, `check_ip_type`)

`IP(ip).iptype()` classifies the textual address; an invalid address raises
and `get_ip_type` maps that to the empty string, which is never monitored.
The GeoIP database is an opaque lookup returning an entry or nothing (a
lookup miss raises inside `reader.city` and is caught, yielding `None`). -/

/-- Address classes distinguished by `IPy` that the pipeline cares about.
`invalid` stands for a syntactically invalid address (where `get_ip_type`
returns the empty string). -/
inductive IpClass where
  | publicAddr
  | privateAddr
  | loopback
  | multicast
  | reserved
  | linkLocal
  | invalid
  deriving Repr, DecidableEq

/-- Modelled from the spec: `MONITORED_IP_TYPES` lives in
`services/logparser/constants.py`, which is not part of the sources at hand;
§4.3 says resolution fails for private, loopback, multicast, reserved and
link-local addresses, so only public addresses are monitored. -/
def monitoredIpType : IpClass → Bool
  | .publicAddr => true
  | _ => false

/-- `LogParser.check_ip_type`: the address class must be monitored. -/
def checkIpType (classify : String → IpClass) (ip : String) : Bool :=
  monitoredIpType (classify ip)

/-- A GeoIP database entry, restricted to the fields the resolution path
tests and copies.  Coordinates are optional and Python treats a coordinate of
`0.0` as falsy, exactly like a missing one. -/
structure GeoDbEntry where
  latitude : Option ℚ
  longitude : Option ℚ
  countryCode : Option String
  deriving Repr, DecidableEq

/-- Python truthiness test `not coord` on an optional float coordinate. -/
def coordFalsy : Option ℚ → Bool
  | none => true
  | some x => x = 0

/-- The geo record produced on success. -/
structure GeoRecord where
  latitude : ℚ
  longitude : ℚ
  countryCode : Option String
  deriving Repr, DecidableEq

/-- The resolution path of `LogParser.upsert_geo_location` (`resolve` in the
specification): `None` on an unmonitored address class, on a database miss,
or when `not latitude or not longitude`; otherwise the geo record.  The
enclosing `try`/`except` returns `None` instead of raising, so the function
is total. -/
def resolveGeo (classify : String → IpClass) (dbLookup : String → Option GeoDbEntry)
    (ip : String) : Option GeoRecord :=
  if ¬ checkIpType classify ip then none
  else
    match dbLookup ip with
    | none => none
    | some entry =>
      if coordFalsy entry.latitude || coordFalsy entry.longitude then none
      else
        match entry.latitude, entry.longitude with
        | some lat, some lon =>
          some { latitude := lat, longitude := lon, countryCode := entry.countryCode }
        | _, _ => none

/-- The claim's failure condition, word for word: invalid address, non-public
class, no database entry, or an entry lacking BOTH coordinates. -/
def claimFailureCond (classify : String → IpClass) (dbLookup : String → Option GeoDbEntry)
    (ip : String) : Bool :=
  classify ip = IpClass.invalid ||
  (match classify ip with
   | .privateAddr | .loopback | .multicast | .reserved | .linkLocal => true
   | _ => false) ||
  (dbLookup ip).isNone ||
  (match dbLookup ip with
   | some entry => entry.latitude.isNone && entry.longitude.isNone
   | none => false)

/-! ## Malformed-request classification (`LogParser._detect_malformed_request`)

Python string operations on the captured groups, modelled on character
lists: `in` is substring containment, `startswith` is a prefix test,
`str.lower`/`str.upper` map `Char.toLower`/`Char.toUpper`.  Escaped byte
sequences in a log line are literal text (backslash, `x`, hex digits). -/

/-- Python `s.startswith(pat)` on character lists (second argument is the
pattern). -/
def listStarts : List Char → List Char → Bool
  | _, [] => true
  | [], _ :: _ => false
  | c :: cs, p :: ps => c = p && listStarts cs ps

/-- Python `pat in s` on character lists (second argument is the pattern). -/
def listHasSub : List Char → List Char → Bool
  | [], pat => pat.isEmpty
  | c :: cs, pat => listStarts (c :: cs) pat || listHasSub cs pat

/-- Python `s.lower()`. -/
def pyLower (s : List Char) : List Char := s.map Char.toLower

/-- Python `s.upper()`. -/
def pyUpper (s : List Char) : List Char := s.map Char.toUpper

/-- The valid-method set of `_detect_malformed_request`. -/
def validMethods : List (List Char) :=
  ["GET", "POST", "PUT", "DELETE", "PATCH", "HEAD", "OPTIONS", "CONNECT", "TRACE"].map
    String.toList

/-- `LogParser._detect_malformed_request` on the captured groups of a matched
line: `method` is the optional method group, `request` the raw request body
(`groupdict` returning `None` behaves like the empty string here, both being
falsy), `statusCode` the defensively parsed status code.  Branches appear in
source order; the first hit returns. -/
def detectMalformedRequest (method : Option String) (request : String)
    (statusCode : Int) : Bool × Option String :=
  let req := request.toList
  let methodMissing : Bool :=
    match method with
    | none => true
    | some m => m = "-"
  if request ≠ "" ∧ listHasSub req "\\x16\\x03".toList = true then
    (true, some "TLS handshake sent to HTTP port (escaped)")
  else if request ≠ "" ∧ listHasSub req ['\x16', '\x03'] = true then
    (true, some "TLS handshake sent to HTTP port (raw)")
  else if request ≠ "" ∧ (listStarts req "SSH-".toList || listHasSub req "\\x53\\x53\\x48".toList) = true then
    (true, some "SSH probe sent to HTTP port")
  else if request ≠ "" ∧
      (listHasSub (pyLower req) "\\xffSMB".toList ||
       listHasSub req ('\xff' :: "SMB".toList) ||
       listHasSub req "SMBr".toList) = true then
    (true, some "SMB protocol probe (EternalBlue scanner)")
  else if request ≠ "" ∧ listHasSub req "NT LM".toList = true then
    (true, some "SMB dialect negotiation probe")
  else if methodMissing = true ∧ statusCode = 400 then
    (true, some "TLS probe: HTTP request sent to HTTPS port")
  else if methodMissing = true then
    (true, some "No HTTP method in request")
  else if (match method with
           | some m => decide (pyUpper m.toList ∉ validMethods)
           | none => false) = true then
    (true, some ("Invalid HTTP method: " ++ (method.getD "")))
  else if statusCode = 408 then
    (true, some "Request timeout (408)")
  else if statusCode = 444 then
    (true, some "Connection closed without response (nginx 444)")
  else if statusCode = 499 then
    (true, some "Client closed connection before response (nginx 499)")
  else
    (false, none)

/-! ## Defensive numeric parsing (`LogParser.create_access_log`)

Only the `connect_time` branch matters to the claims.  `floatParse` stands
for a successful Python `float(...)` conversion (`none` when it would
raise). -/

/-- The `connect_time` expression of `create_access_log`:
`float(raw) if raw != '-' else 0.0`, the whole thing wrapped in
`try`/`except` defaulting to `0.0`.  Every branch yields a float; the column
is nullable but this expression never produces NULL. -/
def parsedConnectTime (floatParse : String → Option ℚ) (raw : Option String) : Option ℚ :=
  if raw = some "-" then some 0
  else
    match raw with
    | none => some 0
    | some s => some ((floatParse s).getD 0)

/-- Modelled from the spec: §4.2 field normalisation mandates that a literal
`-` (and a parse failure) leaves `connect_time` absent; the source is noted
there as inconsistent and the specification fixes null.  Stated from the
spec's words for comparison with `parsedConnectTime`. -/
def specConnectTime (floatParse : String → Option ℚ) (raw : Option String) : Option ℚ :=
  match raw with
  | none => none
  | some s => if s = "-" then none else floatParse s

/-! ## Location last-hit refresh (`AggregationService.refresh_location_last_hits`)

The raw SQL statement updates all locations against one snapshot of
`geo_events`: per location, the max event timestamp replaces `last_hit` when
the column is NULL or smaller. -/

/-- One `geo_events` row (the columns the refresh reads). -/
structure GeoEventRow where
  locationId : Nat
  timestamp : Nat
  deriving Repr, DecidableEq

/-- One `geo_locations` row (the columns the refresh touches). -/
structure GeoLocationRow where
  id : Nat
  lastHit : Option Nat
  deriving Repr, DecidableEq

/-- `MAX(timestamp) ... GROUP BY location_id` restricted to one location:
`none` when the location has no events. -/
def maxEventTs (events : List GeoEventRow) (locId : Nat) : Option Nat :=
  (events.filter (fun e => e.locationId = locId)).foldl
    (fun acc e =>
      match acc with
      | none => some e.timestamp
      | some m => some (max m e.timestamp))
    none

/-- The per-row effect of the refresh statement: update `last_hit` to the
per-location max when the location has events and the current value is NULL
or strictly smaller. -/
def refreshOne (events : List GeoEventRow) (gl : GeoLocationRow) : GeoLocationRow :=
  match maxEventTs events gl.id with
  | none => gl
  | some m =>
    match gl.lastHit with
    | none => { gl with lastHit := some m }
    | some h => if h < m then { gl with lastHit := some m } else gl

/-- `refresh_location_last_hits`: one set-based statement, every row updated
against the same pre-state snapshot of `geo_events`. -/
def refreshLastHits (events : List GeoEventRow) (locs : List GeoLocationRow) :
    List GeoLocationRow :=
  locs.map (refreshOne events)

/-- Ordering on optional `last_hit` values: NULL precedes everything. -/
def lastHitLe (a b : Option Nat) : Prop :=
  match a with
  | none => True
  | some x =>
    match b with
    | none => False
    | some y => x ≤ y

/-! ## C4 — weighted-mean combiner of the hourly upsert -/

/-- C4: on a conflicting hourly upsert the stored `avg_request_time` is the
`coalesce`/`nullif` weighted mean
`(old_avg * old_count + batch_sum) / nullif(old_count + batch_count, 0)`
coalesced to `0.0`: it equals the guarded weighted mean that returns `0` when
`old_count + batch_count = 0`, the denominator handed to the division is
never the literal zero (so no division by zero occurs), and the all-zero
corner case yields `0`. -/
theorem avg_combiner_weighted_mean_coalesced :
    (∀ (old : HourlyRow) (m : BatchMetrics),
      (combineRow old m).avgRequestTime =
        avgCombinerSpec old.avgRequestTime old.totalRequests m.totalRequestTime m.requests)
    ∧ (∀ x : ℚ, sqlNullif x 0 ≠ some 0)
    ∧ (∀ (a s : ℚ), avgCombinerSql a 0 s 0 = 0) := by
  refine ⟨fun old m => ?_, fun x => ?_, fun a s => ?_⟩
  · show avgCombinerSql _ _ _ _ = _
    unfold avgCombinerSql avgCombinerSpec sqlNullif sqlDivOpt sqlCoalesce
    by_cases h : (old.totalRequests : ℚ) + (m.requests : ℚ) = 0 <;> simp [h]
  · unfold sqlNullif
    by_cases h : x = 0 <;> simp [h]
  · unfold avgCombinerSql sqlNullif sqlDivOpt sqlCoalesce
    norm_num

/-! ## C8 — `connect_time == '-'` is stored as 0.0, not NULL -/

/-- C8: the claim (and §4.2 of the specification) mandates that a literal `-`
in the `connect_time` field yields an absent value; the source expression in
`create_access_log` yields the float `0.0` instead, for every float parser. -/
theorem connect_time_dash_is_zero_not_null :
    ∀ floatParse : String → Option ℚ,
      parsedConnectTime floatParse (some "-") = some 0
      ∧ specConnectTime floatParse (some "-") = none := by
  intro floatParse
  constructor
  · rfl
  · rfl

/-! ## C7 — escaped `\xffSMB` alone is not tagged as an SMB probe

In `_detect_malformed_request` the check
`'\\xffSMB' in request.lower()` compares an upper-case needle against a
lower-cased haystack, so it can never fire; a request body containing the
escaped sequence `\xffSMB` (not followed by `r`, with no `NT LM` and no raw
bytes) falls through every probe branch. -/

/-- C7: a matched line whose request body is the escaped text `\xffSMB\x00`
(method `GET`, status 200) carries the escaped SMB marker and no TLS or SSH
trigger, yet `_detect_malformed_request` classifies it as well-formed: the
SMB row of the classification table does not fire on it. -/
theorem smb_escaped_marker_not_classified :
    detectMalformedRequest (some "GET") "\\xffSMB\\x00" 200 = (false, none)
    ∧ listHasSub "\\xffSMB\\x00".toList "\\xffSMB".toList = true := by
  constructor
  · decide
  · decide

/-! ## C6 — when the enrichment returns none -/

/-- C6 (counterexample): for a public address whose database entry carries a
latitude but no longitude, `upsert_geo_location` returns none although the
entry does not lack BOTH coordinates — the claim's "exactly when" fails. -/
theorem resolve_geo_single_missing_coordinate :
    resolveGeo (fun _ => IpClass.publicAddr)
        (fun _ => some { latitude := some 1, longitude := none, countryCode := none })
        "198.51.100.7" = none
    ∧ claimFailureCond (fun _ => IpClass.publicAddr)
        (fun _ => some { latitude := some 1, longitude := none, countryCode := none })
        "198.51.100.7" = false := by
  constructor
  · rfl
  · rfl

/-- C6 (amended): the resolution path returns none exactly when the address
class is not monitored (covers syntactically invalid and all non-public
classes), the database has no entry, or the entry lacks EITHER coordinate —
where a coordinate stored as `0.0` counts as missing (Python truthiness);
in every other case a geo record is returned. -/
theorem resolve_geo_none_iff :
    ∀ (classify : String → IpClass) (dbLookup : String → Option GeoDbEntry) (ip : String),
      resolveGeo classify dbLookup ip = none ↔
        (monitoredIpType (classify ip) = false
         ∨ dbLookup ip = none
         ∨ ∃ entry, dbLookup ip = some entry
             ∧ (coordFalsy entry.latitude = true ∨ coordFalsy entry.longitude = true)) := by
  intro classify dbLookup ip
  unfold resolveGeo checkIpType
  by_cases hm : monitoredIpType (classify ip) = true
  · simp only [hm, not_true_eq_false, if_false]
    cases hdb : dbLookup ip with
    | none => simp [hdb]
    | some entry =>
      by_cases hfal : (coordFalsy entry.latitude || coordFalsy entry.longitude) = true
      · simp only [hfal, if_true]
        simp only [Bool.or_eq_true] at hfal
        simp [hm, hdb, hfal]
      · simp only [hfal, if_false]
        simp only [Bool.or_eq_true, not_or] at hfal
        obtain ⟨hla, hlo⟩ := hfal
        cases hlat : entry.latitude with
        | none => rw [hlat] at hla; exact absurd rfl hla
        | some lat =>
          cases hlon : entry.longitude with
          | none => rw [hlon] at hlo; exact absurd rfl hlo
          | some lon =>
            simp only [hlat, hlon]
            constructor
            · intro h
              simp at h
            · intro h
              exfalso
              rcases h with h | h | ⟨e, he, hc⟩
              · simp at h
              · simp at h
              · injection he with he
                subst he
                rcases hc with hc | hc
                · exact hla hc
                · exact hlo hc
  · simp only [Bool.not_eq_true] at hm
    simp [hm]

/-! ## C10 — debug-row emission -/

/-- C10 (counterexample): a malformed record whose raw line is empty (a blank
log line strips to the empty string) satisfies the claim's emission condition
(`store_debug_lines` OR malformed), yet `_create_debug_entry` returns without
emitting a row because of its falsy-`raw_line` guard. -/
theorem debug_row_skipped_for_empty_raw_line :
    debugStep false
      { ipAddress := none, geoData := none, accessLog := none
        rawLine := "", isMalformed := true, parseError := none } none = none
    ∧ (false || true) = true := by
  constructor
  · rfl
  · rfl

/-- C10 (amended): `_process_record` appends exactly the debug row built by
the debug step, whose foreign key is the id the flush assigns to the record's
`AccessLog` row when one was produced and NULL otherwise; a debug row is
emitted iff (`store_debug_lines` is enabled OR the record is malformed) AND
the record's raw line is non-empty; and an emitted row carries exactly the
given foreign key. -/
theorem debug_row_emission :
    (∀ (env : IngestEnv) (now : Nat) (st : IngestState) (rec : ParsedLogRecord),
      (processRecord env now st rec).debugRows =
        st.debugRows ++
          (debugStep env.storeDebugLines rec
            (if rec.accessLog.isSome then some st.nextAccessId else none)).toList)
    ∧ (∀ (sd : Bool) (rec : ParsedLogRecord) (alid : Option Nat),
        debugStep sd rec alid ≠ none ↔
          ((sd = true ∨ rec.isMalformed = true) ∧ rec.rawLine ≠ ""))
    ∧ (∀ (sd : Bool) (rec : ParsedLogRecord) (alid : Option Nat) (e : DebugEntry),
        debugStep sd rec alid = some e →
          e.accessLogId = alid ∧ e.rawLine = rec.rawLine
          ∧ e.isMalformed = rec.isMalformed ∧ e.parseError = rec.parseError) := by
  refine ⟨fun env now st rec => ?_, fun sd rec alid => ?_, fun sd rec alid e h => ?_⟩
  · unfold processRecord debugPersistStep malformedCountStep debugStep createDebugEntry
    have hgeo : ∀ (env : IngestEnv) (s : IngestState) (r : ParsedLogRecord),
        (geoStep env s r).debugRows = s.debugRows ∧ (geoStep env s r).nextAccessId = s.nextAccessId := by
      intro env s r
      unfold geoStep
      rcases hg : r.geoData with _ | gd <;> rcases hip : r.ipAddress with _ | ip <;>
        simp [hg, hip]
      rcases hl : env.resolveLoc gd with _ | l <;> simp [hl]
    have hhr : ∀ (n : Nat) (s : IngestState) (r : ParsedLogRecord),
        ((hourRebase n s r).1.debugRows = s.debugRows)
        ∧ ((hourRebase n s r).1.nextAccessId = s.nextAccessId) := by
      intro n s r
      unfold hourRebase commitBatch
      rcases hg : r.geoData with _ | gd
      · simp [hg]
      · rcases hts : gd.timestamp with _ | ts
        · simp [hg, hts]
        · rcases hafter : s.batch.isAfterTruncatedHour ts with _ | _ <;>
            simp [hg, hts, hafter, BatchMetrics.updateTruncatedHour]
    have hacc : ∀ (s : IngestState) (al : ParsedAccessLog),
        (accessStep s al).debugRows = s.debugRows := by
      intro s al
      unfold accessStep
      simp
    rcases hrec : rec.accessLog with _ | al <;>
      rcases hsd : env.storeDebugLines with _ | _ <;>
      rcases hmal : rec.isMalformed with _ | _ <;>
      rcases hraw : decEq rec.rawLine "" with h0 | h0 <;>
      simp [hrec, hsd, hmal, h0, (hgeo env _ rec).1, (hgeo env _ rec).2,
        (hhr now st rec).1, (hhr now st rec).2, hacc]
  · unfold debugStep createDebugEntry
    rcases sd with _ | _ <;> rcases hmal : rec.isMalformed with _ | _ <;>
      by_cases h0 : rec.rawLine = "" <;> simp [hmal, h0]
  · unfold debugStep createDebugEntry at h
    rcases sd with _ | _ <;> rcases hmal : rec.isMalformed with _ | _ <;>
      by_cases h0 : rec.rawLine = "" <;>
      simp [hmal, h0] at h <;>
      simp [← h]

/-! ## C9 — location last-hit refresh -/

/-- C9: the refresh is the set-based map of the per-row update over one
snapshot of `geo_events`; for every location it touches, when the
per-location max of the referencing event timestamps exists and is strictly
greater than the current `last_hit` (or the current value is NULL) the new
`last_hit` is exactly that max; and `last_hit` never decreases. -/
theorem refresh_last_hits_correct :
    ∀ (events : List GeoEventRow) (locs : List GeoLocationRow),
      refreshLastHits events locs = locs.map (refreshOne events)
      ∧ ∀ gl ∈ locs,
          (∀ m, maxEventTs events gl.id = some m →
            (gl.lastHit = none ∨ ∃ h, gl.lastHit = some h ∧ h < m) →
            (refreshOne events gl).lastHit = some m)
          ∧ lastHitLe gl.lastHit (refreshOne events gl).lastHit := by
  intro events locs
  refine ⟨rfl, fun gl _ => ⟨fun m hmax hlt => ?_, ?_⟩⟩
  · unfold refreshOne
    rw [hmax]
    rcases hlh : gl.lastHit with _ | h
    · simp
    · rcases hlt with hnone | ⟨h2, hh2, hless⟩
      · rw [hlh] at hnone; cases hnone
      · rw [hlh] at hh2
        injection hh2 with hh2
        subst hh2
        simp [hless]
  · unfold refreshOne
    rcases hmax : maxEventTs events gl.id with _ | m
    · rcases gl.lastHit with _ | h
      · exact trivial
      · exact Nat.le_refl h
    · rcases hlh : gl.lastHit with _ | h
      · simp [lastHitLe, hlh]
      · by_cases hless : h < m
        · simp only [hless, if_true]
          simp [lastHitLe, hlh]
          omega
        · simp only [hless, if_false]
          simp [lastHitLe, hlh]

/-! ## C1 — hour-boundary handling in `_process_record` -/

/-- C1 (counterexample): with the batch based on hour 36000, a record
timestamped 34200 falls in the EARLIER hour 32400; no commit fires, yet the
batch hour does not stay unchanged — the unconditional
`update_truncated_hour` call rebases it backward to 32400. -/
theorem hour_rebase_moves_hour_backward :
    (hourRebase 0 (initIngestState 36000)
        { ipAddress := none
          geoData := some { timestamp := some 34200, geohash := "", countryCode := "" }
          accessLog := none, rawLine := "x", isMalformed := false, parseError := none }).2
      = false
    ∧ (hourRebase 0 (initIngestState 36000)
        { ipAddress := none
          geoData := some { timestamp := some 34200, geohash := "", countryCode := "" }
          accessLog := none, rawLine := "x", isMalformed := false, parseError := none
          }).1.batch.getHourTimestamp = 32400
    ∧ (initIngestState 36000).batch.getHourTimestamp = 36000
    ∧ (32400 : Nat) ≠ 36000 := by
  refine ⟨by decide, by decide, by decide, by decide⟩

/-- C1 (amended): for a geo-timestamped record, (i) when its truncated hour
is LATER than the batch's, the batch is committed first and then rebased to
the record's hour; (ii) when it is the SAME hour, no commit fires and the
batch's hour is unchanged; (iii) when it is EARLIER, no commit fires but the
batch is rebased backward to the record's (earlier) hour, so the record and
all further accretion attach to that earlier hour. -/
theorem hour_rebase_cases :
    ∀ (now : Nat) (st : IngestState) (rec : ParsedLogRecord) (gd : ParsedGeoData) (ts : Nat),
      rec.geoData = some gd → gd.timestamp = some ts →
      ((st.batch.getHourTimestamp < truncHour ts →
          hourRebase now st rec =
            ({ commitBatch now st with
                batch := (commitBatch now st).batch.updateTruncatedHour ts }, true))
        ∧ (truncHour ts = st.batch.getHourTimestamp →
          hourRebase now st rec =
            ({ st with batch := st.batch.updateTruncatedHour ts }, false)
          ∧ (hourRebase now st rec).1.batch.getHourTimestamp = st.batch.getHourTimestamp)
        ∧ (truncHour ts < st.batch.getHourTimestamp →
          hourRebase now st rec =
            ({ st with batch := st.batch.updateTruncatedHour ts }, false)
          ∧ (hourRebase now st rec).1.batch.getHourTimestamp = truncHour ts)) := by
  intro now st rec gd ts hg hts
  have hdef : hourRebase now st rec =
      (if st.batch.isAfterTruncatedHour ts then
        ({ commitBatch now st with
            batch := (commitBatch now st).batch.updateTruncatedHour ts }, true)
      else ({ st with batch := st.batch.updateTruncatedHour ts }, false)) := by
    unfold hourRebase
    rw [hg]
    dsimp only
    rw [hts]
    dsimp only
    by_cases hafter : st.batch.isAfterTruncatedHour ts = true
    · simp [hafter]
    · simp only [Bool.not_eq_true] at hafter
      simp [hafter]
  refine ⟨fun hlt => ?_, fun heq => ?_, fun hgt => ?_⟩
  · rw [hdef]
    have hyes : st.batch.isAfterTruncatedHour ts = true := by
      unfold BatchMetrics.isAfterTruncatedHour
      exact decide_eq_true hlt
    simp [hyes]
  · have hnot : st.batch.isAfterTruncatedHour ts = false := by
      unfold BatchMetrics.isAfterTruncatedHour
      apply decide_eq_false
      omega
    constructor
    · rw [hdef]
      simp [hnot]
    · rw [hdef]
      simp only [hnot, Bool.false_eq_true, if_false]
      show truncHour (truncHour ts) = _
      rw [truncHour_idem, heq]
  · have hnot : st.batch.isAfterTruncatedHour ts = false := by
      unfold BatchMetrics.isAfterTruncatedHour
      apply decide_eq_false
      omega
    constructor
    · rw [hdef]
      simp [hnot]
    · rw [hdef]
      simp only [hnot, Bool.false_eq_true, if_false]
      show truncHour (truncHour ts) = truncHour ts
      exact truncHour_idem ts

/-! ## C3 — mid-stream commit failure -/

/-- Helper for C3: when every mid-stream commit succeeds, the loop never
raises and consumes the whole stream. -/
theorem runLoop_all_commits_ok (batchSize : Nat) (commitOk : Nat → Bool)
    (hok : ∀ k, commitOk k = true) :
    ∀ (records : List Unit) (st : LoopState),
      (runLoop batchSize commitOk records st).2 = false
      ∧ (runLoop batchSize commitOk records st).1.processed = st.processed + records.length := by
  intro records
  induction records with
  | nil => intro st; simp [runLoop]
  | cons r rs ih =>
    intro st
    unfold runLoop
    by_cases hb : batchSize ≤ st.pending + 1
    · simp only [hb, if_true, hok]
      have h2 := ih { st with pending := 0, commitsDone := st.commitsDone + 1
                              processed := st.processed + 1 }
      refine ⟨h2.1, ?_⟩
      rw [h2.2]
      simp
      omega
    · simp only [hb, if_false]
      have h2 := ih { st with pending := st.pending + 1, processed := st.processed + 1 }
      refine ⟨h2.1, ?_⟩
      rw [h2.2]
      simp
      omega

/-- Helper for C3: the loop raises only when some mid-stream commit failed. -/
theorem runLoop_raised_has_failed_commit (batchSize : Nat) (commitOk : Nat → Bool) :
    ∀ (records : List Unit) (st : LoopState),
      (runLoop batchSize commitOk records st).2 = true → ∃ k, commitOk k = false := by
  intro records
  induction records with
  | nil => intro st h; simp [runLoop] at h
  | cons r rs ih =>
    intro st h
    unfold runLoop at h
    by_cases hb : batchSize ≤ st.pending + 1
    · simp only [hb, if_true] at h
      by_cases hc : commitOk st.commitsDone = true
      · simp only [hc, if_true] at h
        exact ih _ h
      · simp only [Bool.not_eq_true] at hc
        exact ⟨st.commitsDone, hc⟩
    · simp only [hb, if_false] at h
      exact ih _ h

/-- C3 (counterexample): with `batch_size = 2`, five records and a first
commit that raises, `_run_ingestion` re-raises out of the coroutine after
processing only two records — the loop does not continue with the next
batch, contradicting the claim that no exception propagates and processing
goes on. -/
theorem commit_failure_stops_ingestion :
    runIngestion 2 (fun k => decide (0 < k)) true (List.replicate 5 ())
      = { processed := 2, commitsAttempted := 2, finalCommitAttempted := true, raised := true }
    ∧ (2 : Nat) ≠ 5 := by
  refine ⟨by decide, by decide⟩

/-- C3 (amended): a mid-stream commit failure is logged and RE-RAISED by
`_run_ingestion`'s `except Exception` handler, terminating the loop, with
only the `finally`-block final commit guarded by its own handler: the
observable outcome is independent of the final commit's success or failure;
when every mid-stream commit succeeds nothing is raised and every record is
processed; and whenever the run raises, some mid-stream commit failed. -/
theorem run_ingestion_error_handling :
    (∀ (batchSize : Nat) (commitOk : Nat → Bool) (records : List Unit),
      runIngestion batchSize commitOk true records = runIngestion batchSize commitOk false records)
    ∧ (∀ (batchSize : Nat) (commitOk : Nat → Bool) (finalOk : Bool) (records : List Unit),
        (∀ k, commitOk k = true) →
        (runIngestion batchSize commitOk finalOk records).raised = false
        ∧ (runIngestion batchSize commitOk finalOk records).processed = records.length)
    ∧ (∀ (batchSize : Nat) (commitOk : Nat → Bool) (finalOk : Bool) (records : List Unit),
        (runIngestion batchSize commitOk finalOk records).raised = true →
        ∃ k, commitOk k = false) := by
  refine ⟨fun bs ok recs => rfl, fun bs ok fOk recs hok => ?_, fun bs ok fOk recs h => ?_⟩
  · have h := runLoop_all_commits_ok bs ok hok recs
      { pending := 0, commitsDone := 0, processed := 0 }
    unfold runIngestion
    dsimp only
    exact ⟨h.1, by rw [h.2]; simp⟩
  · exact runLoop_raised_has_failed_commit bs ok recs _ h

/-! ## C5 — location deduper -/

/-- Helper: what a successful geohash `find?` returns. -/
theorem findPair_eq_some {l : List (String × Nat)} {g : String} {p : String × Nat}
    (h : List.find? (fun q => q.1 = g) l = some p) : p ∈ l ∧ p.1 = g := by
  refine ⟨List.mem_of_find?_eq_some h, ?_⟩
  have h2 := List.find?_some h
  simpa using h2

/-- Helper: a failed geohash `find?` means no row carries the geohash. -/
theorem findPair_eq_none {l : List (String × Nat)} {g : String}
    (h : List.find? (fun q => q.1 = g) l = none) : ∀ p ∈ l, p.1 ≠ g := by
  intro p hp
  have := List.find?_eq_none.mp h p hp
  simpa using this

/-- Helper: with pairwise-distinct geohash keys, the number of rows carrying
a geohash is one or zero according to membership. -/
theorem rowCount_of_nodup (rows : List (String × Nat)) (g : String)
    (hnd : (rows.map Prod.fst).Nodup) :
    (rows.filter (fun p => p.1 = g)).length = if g ∈ rows.map Prod.fst then 1 else 0 := by
  induction rows with
  | nil => simp
  | cons p rest ih =>
    simp only [List.map_cons, List.nodup_cons] at hnd
    obtain ⟨hp, hrest⟩ := hnd
    by_cases hpg : p.1 = g
    · have hfil : rest.filter (fun q => decide (q.1 = g)) = [] := by
        rw [List.filter_eq_nil_iff]
        intro q hq
        simp only [decide_eq_true_eq]
        intro hqg
        exact hp (by rw [← hpg] at hqg; exact hqg ▸ List.mem_map_of_mem Prod.fst hq)
      simp [List.filter_cons, hpg, hfil]
    · simp only [List.filter_cons, decide_eq_true_eq, hpg, if_false]
      rw [ih hrest]
      have : (g ∈ p.1 :: rest.map Prod.fst) ↔ g ∈ rest.map Prod.fst := by
        simp only [List.mem_cons]
        constructor
        · rintro (h | h)
          · exact absurd h.symm hpg
          · exact h
        · exact Or.inr
      simp only [List.map_cons]
      rw [if_congr this rfl rfl]

/-- The invariant a single ingestion task maintains across deduper calls:
every cache entry mirrors a store row, and store geohash keys are pairwise
distinct (the unique constraint). -/
def dedupInv (c : List (String × Nat)) (s : LocationStore) : Prop :=
  (∀ p ∈ c, p ∈ s.rows) ∧ (s.rows.map Prod.fst).Nodup

/-- Helper for C5: one consistent-store deduper call preserves the invariant
and adds exactly the requested geohash to the store's key set. -/
theorem dedupStep_preserves (c : List (String × Nat)) (s : LocationStore) (g : String)
    (hinv : dedupInv c s) :
    dedupInv (dedupStep (c, s) g).1 (dedupStep (c, s) g).2
    ∧ (∀ x, x ∈ (dedupStep (c, s) g).2.rows.map Prod.fst ↔
        x ∈ s.rows.map Prod.fst ∨ x = g) := by
  obtain ⟨hsound, hnd⟩ := hinv
  have hevict : ∀ p, p ∈ evictIfFull c → p ∈ c := by
    intro p h
    unfold evictIfFull at h
    by_cases hful : cacheMaxsize ≤ c.length
    · simp only [hful, if_true] at h
      exact List.mem_of_mem_drop h
    · simp only [hful, if_false] at h
      exact h
  cases hc : List.find? (fun q => q.1 = g) c with
  | some p =>
    obtain ⟨hpc, hpg⟩ := findPair_eq_some hc
    have hgkeys : g ∈ s.rows.map Prod.fst :=
      hpg ▸ List.mem_map_of_mem Prod.fst (hsound p hpc)
    have hred : dedupStep (c, s) g = (c, s) := by
      simp [dedupStep, getOrCreateLocation, hc]
    rw [hred]
    refine ⟨⟨hsound, hnd⟩, fun x => ?_⟩
    constructor
    · exact Or.inl
    · rintro (h | rfl)
      · exact h
      · exact hgkeys
  | none =>
    cases hs : storeLookup s g with
    | some locId =>
      have hq : ∃ q, List.find? (fun r => r.1 = g) s.rows = some q := by
        unfold storeLookup at hs
        cases hfq : List.find? (fun r => r.1 = g) s.rows with
        | none => rw [hfq] at hs; simp at hs
        | some q => exact ⟨q, rfl⟩
      obtain ⟨q, hfq⟩ := hq
      obtain ⟨hqs, hqg⟩ := findPair_eq_some hfq
      have hid : q.2 = locId := by
        unfold storeLookup at hs
        rw [hfq] at hs
        simpa using hs
      have hmem : (g, locId) ∈ s.rows := by
        have hqe : q = (g, locId) := by
          cases q with
          | mk a b =>
            simp only at hqg hid
            rw [hqg, hid]
        rw [← hqe]
        exact hqs
      have hgkeys : g ∈ s.rows.map Prod.fst := List.mem_map_of_mem Prod.fst hmem
      have hred : dedupStep (c, s) g = (evictIfFull c ++ [(g, locId)], s) := by
        simp [dedupStep, getOrCreateLocation, hc, hs]
      rw [hred]
      refine ⟨⟨?_, hnd⟩, fun x => ?_⟩
      · intro p hp
        rcases List.mem_append.mp hp with h | h
        · exact hsound p (hevict p h)
        · simp only [List.mem_singleton] at h
          rw [h]
          exact hmem
      · constructor
        · exact Or.inl
        · rintro (h | rfl)
          · exact h
          · exact hgkeys
    | none =>
      have hnone : ∀ p ∈ s.rows, p.1 ≠ g := by
        intro p hp
        unfold storeLookup at hs
        cases hfq : List.find? (fun r => r.1 = g) s.rows with
        | some q => rw [hfq] at hs; simp at hs
        | none => exact findPair_eq_none hfq p hp
      have hred : dedupStep (c, s) g =
          (evictIfFull c ++ [(g, s.nextId)],
            { rows := s.rows ++ [(g, s.nextId)], nextId := s.nextId + 1 }) := by
        simp [dedupStep, getOrCreateLocation, hc, hs]
      rw [hred]
      refine ⟨⟨?_, ?_⟩, fun x => ?_⟩
      · intro p hp
        rcases List.mem_append.mp hp with h | h
        · exact List.mem_append.mpr (Or.inl (hsound p (hevict p h)))
        · simp only [List.mem_singleton] at h
          exact List.mem_append.mpr (Or.inr (by rw [h]; exact List.mem_singleton.mpr rfl))
      · rw [List.map_append]
        rw [List.nodup_append]
        refine ⟨hnd, List.nodup_singleton _, ?_⟩
        intro x hx
        simp only [List.map_cons, List.map_nil, List.mem_singleton]
        intro hxg
        obtain ⟨p, hp, hpx⟩ := List.mem_map.mp hx
        exact hnone p hp (by rw [hpx]; exact hxg)
      · rw [List.map_append]
        simp [List.mem_append]

/-- Helper for C5: the fold of deduper calls keeps the invariant and ends
with the store keys being the initial keys plus the processed geohashes. -/
theorem dedupFold_keys (gs : List String) :
    ∀ (c : List (String × Nat)) (s : LocationStore), dedupInv c s →
      dedupInv (gs.foldl dedupStep (c, s)).1 (gs.foldl dedupStep (c, s)).2
      ∧ (∀ x, x ∈ (gs.foldl dedupStep (c, s)).2.rows.map Prod.fst ↔
          x ∈ s.rows.map Prod.fst ∨ x ∈ gs) := by
  induction gs with
  | nil =>
    intro c s hinv
    refine ⟨hinv, fun x => ?_⟩
    simp
  | cons g rest ih =>
    intro c s hinv
    have hstep := dedupStep_preserves c s g hinv
    have hrec := ih (dedupStep (c, s) g).1 (dedupStep (c, s) g).2 hstep.1
    simp only [List.foldl_cons]
    constructor
    · exact hrec.1
    · intro x
      rw [hrec.2 x]
      rw [hstep.2 x]
      simp only [List.mem_cons]
      tauto

/-- C5 (counterexample): when the store seen by the insert already holds the
geohash that the point lookup missed (the upsert race of §7), the insert's
duplicate-key failure is NOT recovered by a re-read: `_get_or_create_location`
has no handler and the error propagates. -/
theorem dup_key_not_recovered :
    getOrCreateLocation [] { rows := [], nextId := 0 }
        { rows := [("u4pruydqqvj8", 7)], nextId := 8 } "u4pruydqqvj8"
      = Except.error DbError.duplicateKey := by
  rfl

/-- C5 (amended): the geohash unique constraint makes a racing insert fail
with a duplicate-key error that `_get_or_create_location` does not handle
(first conjunct); within a single ingestion task, whose lookups and inserts
see the same store, a whole run of the deduper creates exactly one
`geo_locations` row for each geohash it ever sees and none for the rest
(second conjunct). -/
theorem location_dedup_one_row :
    (∀ (cache : List (String × Nat)) (lookupStore insertStore : LocationStore) (g : String),
      List.find? (fun q => q.1 = g) cache = none →
      storeLookup lookupStore g = none →
      (storeLookup insertStore g).isSome = true →
      getOrCreateLocation cache lookupStore insertStore g = Except.error DbError.duplicateKey)
    ∧ (∀ (gs : List String) (g : String),
        rowCount (dedupRun gs).2 g = if g ∈ gs then 1 else 0) := by
  constructor
  · intro cache ls is g hc hls his
    unfold getOrCreateLocation
    rw [hc]
    simp only [Option.map_none]
    rw [hls]
    rw [his]
    rfl
  · intro gs g
    have hinv : dedupInv ([] : List (String × Nat)) { rows := [], nextId := 0 } := by
      constructor
      · intro p hp; cases hp
      · simp
    have h := dedupFold_keys gs [] { rows := [], nextId := 0 } hinv
    unfold dedupRun rowCount
    have hnd := h.1.2
    rw [rowCount_of_nodup _ g hnd]
    have hiff := h.2 g
    simp only [List.map_nil, List.not_mem_nil, false_or] at hiff
    rw [if_congr hiff rfl rfl]

/-! ## C2 — total_requests versus status-class counters -/

/-- A hourly row whose request total equals the sum of its status-class
counters. -/
def rowBalanced (r : HourlyRow) : Prop :=
  r.totalRequests = r.status2xx + r.status3xx + r.status4xx + r.status5xx

/-- The same balance on the in-batch metrics. -/
def batchBalanced (b : BatchMetrics) : Prop :=
  b.requests = b.status2xx + b.status3xx + b.status4xx + b.status5xx

/-- Every row of the hourly table is balanced. -/
def tableBalanced (t : HourlyTable) : Prop := ∀ p ∈ t, rowBalanced p.2

/-- The two-part invariant carried through the ingestion loop. -/
def ingestBalanced (st : IngestState) : Prop :=
  tableBalanced st.table ∧ batchBalanced st.batch

/-- A record whose access-log part (if any) carries a status of at least
200. -/
def statusAtLeast200 (rec : ParsedLogRecord) : Prop :=
  ∀ al, rec.accessLog = some al → 200 ≤ al.statusCode

theorem resetBatchMetrics_balanced (now : Nat) : batchBalanced (resetBatchMetrics now) := by
  simp [resetBatchMetrics, batchBalanced]

theorem upsertIncrement_balanced (t : HourlyTable) (m : BatchMetrics)
    (ht : tableBalanced t) (hm : batchBalanced m) :
    tableBalanced (upsertIncrement t m) := by
  unfold upsertIncrement
  by_cases hf : (List.find? (fun p => p.1 = truncHour m.timestamp) t).isSome = true
  · simp only [hf, if_true]
    intro p hp
    obtain ⟨q, hq, hqe⟩ := List.mem_map.mp hp
    by_cases hqh : q.1 = truncHour m.timestamp
    · rw [← hqe]
      simp only [hqh, if_true]
      have hq2 := ht q hq
      unfold rowBalanced combineRow at *
      unfold batchBalanced at hm
      simp only
      omega
    · rw [← hqe]
      simp only [hqh, if_false]
      exact ht q hq
  · simp only [hf, if_false]
    intro p hp
    rcases List.mem_append.mp hp with h | h
    · exact ht p h
    · simp only [List.mem_singleton] at h
      rw [h]
      unfold rowBalanced insertRowOf
      unfold batchBalanced at hm
      simp only
      omega

theorem commitBatch_balanced (now : Nat) (st : IngestState) (h : ingestBalanced st) :
    ingestBalanced (commitBatch now st) := by
  obtain ⟨ht, hb⟩ := h
  unfold commitBatch ingestBalanced
  constructor
  · by_cases hc : (0 < st.batch.requests || 0 < st.batch.geoEvents) = true
    · simp only [hc, if_true]
      exact upsertIncrement_balanced _ _ ht hb
    · simp only [Bool.not_eq_true] at hc
      simp only [hc, Bool.false_eq_true, if_false]
      exact ht
  · exact resetBatchMetrics_balanced now

theorem hourRebase_balanced (now : Nat) (st : IngestState) (rec : ParsedLogRecord)
    (h : ingestBalanced st) : ingestBalanced (hourRebase now st rec).1 := by
  unfold hourRebase
  rcases hg : rec.geoData with _ | gd
  · simp only [hg]
    exact h
  · simp only [hg]
    rcases hts : gd.timestamp with _ | ts
    · simp only [hts]
      exact h
    · simp only [hts]
      rcases hafter : st.batch.isAfterTruncatedHour ts with _ | _
      · simp only [hafter, Bool.false_eq_true, if_false]
        exact ⟨h.1, h.2⟩
      · simp only [hafter, if_true]
        have h2 := commitBatch_balanced now st h
        exact ⟨h2.1, h2.2⟩

theorem geoStep_balanced (env : IngestEnv) (st : IngestState) (rec : ParsedLogRecord)
    (h : ingestBalanced st) : ingestBalanced (geoStep env st rec) := by
  unfold geoStep
  rcases hg : rec.geoData with _ | gd
  · simp only [hg]
    exact h
  · rcases hip : rec.ipAddress with _ | ip
    · simp only [hg, hip]
      exact h
    · simp only [hg, hip]
      rcases hl : env.resolveLoc gd with _ | l
      · simp only [hl]
        exact h
      · simp only [hl]
        exact ⟨h.1, h.2⟩

theorem accessStep_balanced (st : IngestState) (al : ParsedAccessLog)
    (h : ingestBalanced st) (hs : 200 ≤ al.statusCode) :
    ingestBalanced (accessStep st al) := by
  obtain ⟨ht, hb⟩ := h
  unfold accessStep
  refine ⟨ht, ?_⟩
  unfold batchBalanced at hb ⊢
  simp only
  split_ifs <;> omega

theorem debugPersistStep_balanced (env : IngestEnv) (st : IngestState)
    (rec : ParsedLogRecord) (aa : Bool) (aid : Nat) (h : ingestBalanced st) :
    ingestBalanced (debugPersistStep env st rec aa aid) := by
  unfold debugPersistStep
  by_cases hdbg : (env.storeDebugLines || rec.isMalformed) = true
  · simp only [hdbg, if_true]
    rcases createDebugEntry rec (if aa then some aid else none) with _ | e
    · exact ⟨h.1, h.2⟩
    · exact ⟨h.1, h.2⟩
  · simp only [Bool.not_eq_true] at hdbg
    simp only [hdbg, Bool.false_eq_true, if_false]
    exact h

theorem malformedCountStep_balanced (st : IngestState) (rec : ParsedLogRecord)
    (h : ingestBalanced st) : ingestBalanced (malformedCountStep st rec) := by
  unfold malformedCountStep
  by_cases hmal : rec.isMalformed = true
  · simp only [hmal, if_true]
    exact ⟨h.1, h.2⟩
  · simp only [Bool.not_eq_true] at hmal
    simp only [hmal, Bool.false_eq_true, if_false]
    exact h

theorem processRecord_balanced (env : IngestEnv) (now : Nat) (st : IngestState)
    (rec : ParsedLogRecord) (h : ingestBalanced st) (hs : statusAtLeast200 rec) :
    ingestBalanced (processRecord env now st rec) := by
  have h1 := hourRebase_balanced now st rec h
  have h2 := geoStep_balanced env (hourRebase now st rec).1 rec h1
  have h3 : ingestBalanced
      (match rec.accessLog with
       | some al => accessStep (geoStep env (hourRebase now st rec).1 rec) al
       | none => geoStep env (hourRebase now st rec).1 rec) := by
    rcases hal : rec.accessLog with _ | al
    · exact h2
    · exact accessStep_balanced _ al h2 (hs al hal)
  have h4 := debugPersistStep_balanced env _ rec rec.accessLog.isSome
    (geoStep env (hourRebase now st rec).1 rec).nextAccessId h3
  have h5 := malformedCountStep_balanced _ rec h4
  exact ⟨h5.1, h5.2⟩

theorem ingestLoop_balanced (env : IngestEnv) (now : Nat) (commitAfter : Nat → Bool) :
    ∀ (records : List ParsedLogRecord) (i : Nat) (st : IngestState),
      ingestBalanced st → (∀ rec ∈ records, statusAtLeast200 rec) →
      ingestBalanced (ingestLoop env now commitAfter records i st) := by
  intro records
  induction records with
  | nil => intro i st h _; exact h
  | cons r rs ih =>
    intro i st h hok
    have hr : statusAtLeast200 r := hok r (List.mem_cons_self r rs)
    have hrs : ∀ rec ∈ rs, statusAtLeast200 rec := fun rec hm => hok rec (List.mem_cons_of_mem r hm)
    unfold ingestLoop
    have h1 := processRecord_balanced env now st r h hr
    by_cases hc : commitAfter i = true
    · simp only [hc, if_true]
      exact ih (i + 1) _ (commitBatch_balanced now _ h1) hrs
    · simp only [Bool.not_eq_true] at hc
      simp only [hc, Bool.false_eq_true, if_false]
      exact ih (i + 1) _ h1 hrs

/-- C2 (counterexample): one ingested record whose access log carries status
100 yields, after the final commit, a committed hourly row with
`total_requests = 1` while the four status-class counters sum to 0 — the
claimed invariant fails for this sequence of records. -/
theorem hourly_row_unbalanced_on_status_100 :
    ((ingest { resolveLoc := fun _ => none, storeDebugLines := false } 0 (fun _ => false)
        [{ ipAddress := none, geoData := none
           accessLog := some { statusCode := 100, bytesSent := 0, requestTime := 0 }
           rawLine := "x", isMalformed := false, parseError := none }]).table.map
      (fun p => (p.1, p.2.totalRequests,
        p.2.status2xx + p.2.status3xx + p.2.status4xx + p.2.status5xx)))
      = [(0, 1, 0)]
    ∧ (1 : Nat) ≠ 0 := by
  refine ⟨by decide, by decide⟩

/-- C2 (amended): after any batch commit, every hourly row satisfies
`total_requests = status_2xx + status_3xx + status_4xx + status_5xx`,
PROVIDED every ingested record's access log carries a status code of at
least 200; a record with a smaller status (for example the defensive default
0, or an informational 1xx) increments `total_requests` without touching any
class counter and breaks the equality. -/
theorem hourly_total_eq_status_class_sum :
    ∀ (env : IngestEnv) (now : Nat) (commitAfter : Nat → Bool)
      (records : List ParsedLogRecord),
      (∀ rec ∈ records, ∀ al, rec.accessLog = some al → 200 ≤ al.statusCode) →
      ∀ p ∈ (ingest env now commitAfter records).table,
        p.2.totalRequests = p.2.status2xx + p.2.status3xx + p.2.status4xx + p.2.status5xx := by
  intro env now commitAfter records hok
  have hinit : ingestBalanced (initIngestState now) := by
    constructor
    · intro p hp
      cases hp
    · exact resetBatchMetrics_balanced now
  have hloop := ingestLoop_balanced env now commitAfter records 0 (initIngestState now)
    hinit hok
  unfold ingest
  by_cases hp : 0 < (ingestLoop env now commitAfter records 0 (initIngestState now)).pendingRecords
  · simp only [hp, if_true]
    exact commitBatch_balanced now _ hloop |>.1
  · simp only [hp, if_false]
    exact hloop.1

/-! ## Witnesses: each hypothesis-bearing theorem applied at a concrete input -/

/-- Witness for `hour_rebase_cases`: a later-hour record (hour 7200 against a
batch at hour 0) commits and rebases. -/
theorem hour_rebase_cases_witness :
    truncHour 0 < truncHour 7200
    ∧ hourRebase 5 (initIngestState 0)
        { ipAddress := none
          geoData := some { timestamp := some 7200, geohash := "", countryCode := "" }
          accessLog := none, rawLine := "x", isMalformed := false, parseError := none }
      = ({ commitBatch 5 (initIngestState 0) with
            batch := (commitBatch 5 (initIngestState 0)).batch.updateTruncatedHour 7200 },
          true) := by
  refine ⟨by decide, ?_⟩
  exact (hour_rebase_cases 5 (initIngestState 0)
    { ipAddress := none
      geoData := some { timestamp := some 7200, geohash := "", countryCode := "" }
      accessLog := none, rawLine := "x", isMalformed := false, parseError := none }
    { timestamp := some 7200, geohash := "", countryCode := "" } 7200 rfl rfl).1 (by decide)

/-- Witness for `hourly_total_eq_status_class_sum`: a single geo-only record
(no access log, so the status hypothesis holds vacuously) yields one hourly
row with zero requests and zero class counters. -/
theorem hourly_total_eq_status_class_sum_witness :
    (∀ rec ∈ ([{ ipAddress := some "203.0.113.9"
                 geoData := some { timestamp := some 0, geohash := "g", countryCode := "US" }
                 accessLog := none, rawLine := "x", isMalformed := false, parseError := none }] :
        List ParsedLogRecord),
      ∀ al, rec.accessLog = some al → 200 ≤ al.statusCode)
    ∧ ({ totalRequests := 0, totalGeoEvents := 1, uniqueIps := 1, uniqueCountries := 1
         totalBytesSent := 0, status2xx := 0, status3xx := 0, status4xx := 0, status5xx := 0
         avgRequestTime := 0, maxRequestTime := 0, malformedRequests := 0 } :
          HourlyRow).totalRequests = 0 + 0 + 0 + 0 := by
  have hyp : ∀ rec ∈ ([{ ipAddress := some "203.0.113.9"
                         geoData := some { timestamp := some 0, geohash := "g", countryCode := "US" }
                         accessLog := none, rawLine := "x", isMalformed := false
                         parseError := none }] :
        List ParsedLogRecord),
      ∀ al, rec.accessLog = some al → 200 ≤ al.statusCode := by
    intro rec hrec al hal
    simp only [List.mem_singleton] at hrec
    subst hrec
    exact Option.noConfusion hal
  refine ⟨hyp, ?_⟩
  exact hourly_total_eq_status_class_sum
    { resolveLoc := fun _ => some 1, storeDebugLines := false } 0 (fun _ => false)
    [{ ipAddress := some "203.0.113.9"
       geoData := some { timestamp := some 0, geohash := "g", countryCode := "US" }
       accessLog := none, rawLine := "x", isMalformed := false, parseError := none }] hyp
    (0, { totalRequests := 0, totalGeoEvents := 1, uniqueIps := 1, uniqueCountries := 1
          totalBytesSent := 0, status2xx := 0, status3xx := 0, status4xx := 0, status5xx := 0
          avgRequestTime := 0, maxRequestTime := 0, malformedRequests := 0 })
    (by decide)

/-- Witness for `run_ingestion_error_handling`: with all commits succeeding,
three records are processed and nothing is raised. -/
theorem run_ingestion_error_handling_witness :
    (∀ k : Nat, (fun _ : Nat => true) k = true)
    ∧ (runIngestion 2 (fun _ => true) true (List.replicate 3 ())).raised = false
    ∧ (runIngestion 2 (fun _ => true) true (List.replicate 3 ())).processed
        = (List.replicate 3 ()).length := by
  refine ⟨fun k => rfl, ?_, ?_⟩
  · exact (run_ingestion_error_handling.2.1 2 (fun _ => true) true
      (List.replicate 3 ()) (fun k => rfl)).1
  · exact (run_ingestion_error_handling.2.1 2 (fun _ => true) true
      (List.replicate 3 ()) (fun k => rfl)).2

/-- Witness for `avg_combiner_weighted_mean_coalesced`: the combiner on a
concrete conflicting row equals the guarded weighted mean, and the all-zero
corner yields zero. -/
theorem avg_combiner_weighted_mean_coalesced_witness :
    (combineRow
        { totalRequests := 4, totalGeoEvents := 0, uniqueIps := 0, uniqueCountries := 0
          totalBytesSent := 0, status2xx := 4, status3xx := 0, status4xx := 0, status5xx := 0
          avgRequestTime := 2, maxRequestTime := 2, malformedRequests := 0 }
        { timestamp := 0, requests := 2, geoEvents := 0, bytesSent := 0
          status2xx := 2, status3xx := 0, status4xx := 0, status5xx := 0
          totalRequestTime := 6, maxRequestTime := 3, malformedRequests := 0
          uniqueIps := [], uniqueCountries := [] }).avgRequestTime
      = avgCombinerSpec 2 4 6 2
    ∧ avgCombinerSql 0 0 0 0 = 0 := by
  constructor
  · exact avg_combiner_weighted_mean_coalesced.1
      { totalRequests := 4, totalGeoEvents := 0, uniqueIps := 0, uniqueCountries := 0
        totalBytesSent := 0, status2xx := 4, status3xx := 0, status4xx := 0, status5xx := 0
        avgRequestTime := 2, maxRequestTime := 2, malformedRequests := 0 }
      { timestamp := 0, requests := 2, geoEvents := 0, bytesSent := 0
        status2xx := 2, status3xx := 0, status4xx := 0, status5xx := 0
        totalRequestTime := 6, maxRequestTime := 3, malformedRequests := 0
        uniqueIps := [], uniqueCountries := [] }
  · exact avg_combiner_weighted_mean_coalesced.2.2 0 0

/-- Witness for `location_dedup_one_row`: a concrete race hits the
duplicate-key error, and seeing the same geohash twice leaves one row. -/
theorem location_dedup_one_row_witness :
    getOrCreateLocation [] { rows := [], nextId := 0 } { rows := [("g", 3)], nextId := 4 } "g"
      = Except.error DbError.duplicateKey
    ∧ rowCount (dedupRun ["g", "g"]).2 "g" = 1 := by
  constructor
  · exact location_dedup_one_row.1 [] { rows := [], nextId := 0 }
      { rows := [("g", 3)], nextId := 4 } "g" rfl rfl rfl
  · have h := location_dedup_one_row.2 ["g", "g"] "g"
    simpa using h

/-- Witness for `resolve_geo_none_iff`: a private address resolves to none. -/
theorem resolve_geo_none_iff_witness :
    resolveGeo (fun _ => IpClass.privateAddr) (fun _ => none) "10.0.0.1" = none := by
  exact (resolve_geo_none_iff (fun _ => IpClass.privateAddr) (fun _ => none) "10.0.0.1").mpr
    (Or.inl rfl)

/-- Witness for `refresh_last_hits_correct`: one event at 50 lifts a NULL
`last_hit` to 50. -/
theorem refresh_last_hits_correct_witness :
    maxEventTs [{ locationId := 1, timestamp := 50 }] 1 = some 50
    ∧ (refreshOne [{ locationId := 1, timestamp := 50 }] { id := 1, lastHit := none }).lastHit
        = some 50 := by
  refine ⟨by decide, ?_⟩
  exact ((refresh_last_hits_correct [{ locationId := 1, timestamp := 50 }]
      [{ id := 1, lastHit := none }]).2
    { id := 1, lastHit := none } (by decide)).1 50 (by decide) (Or.inl rfl)

/-- Witness for `debug_row_emission`: a stored debug row carries the flushed
access-log id as its foreign key. -/
theorem debug_row_emission_witness :
    debugStep true
        { ipAddress := none, geoData := none, accessLog := none
          rawLine := "line", isMalformed := false, parseError := none } (some 5)
      = some { accessLogId := some 5, rawLine := "line", isMalformed := false, parseError := none }
    ∧ ({ accessLogId := some 5, rawLine := "line", isMalformed := false
         parseError := none } : DebugEntry).accessLogId = some 5 := by
  refine ⟨rfl, ?_⟩
  exact (debug_row_emission.2.2 true
    { ipAddress := none, geoData := none, accessLog := none
      rawLine := "line", isMalformed := false, parseError := none } (some 5)
    { accessLogId := some 5, rawLine := "line", isMalformed := false, parseError := none }
    rfl).1

end Geometrikks
